import Mathlib

/-!
Verification of the TruffleHog fork's Exa detector and asynchronous scan
API server, shallowly embedded from `pkg/detectors/exa/exa.go` and
`pkg/api/server.go`.  Text is modelled as `List Char`, the outcome of an
outbound HTTP call as an explicit `HttpOutcome` environment value, and the
server's shared scan registry as an association list indexed by scan id.
-/

set_option linter.unusedVariables false

namespace TruffleHog

/-! ## The Exa detector (`pkg/detectors/exa/exa.go`) -/

namespace Exa

/-- The character class `[a-f0-9]` of `keyPat` (lower-case hex digit). -/
def isHexLower (c : Char) : Bool :=
  (97 ≤ c.toNat && c.toNat ≤ 102) || (48 ≤ c.toNat && c.toNat ≤ 57)

/-- An RE2 word character `[0-9A-Za-z_]`, the class the `\b` anchors of
`keyPat` are relative to. -/
def isWordChar (c : Char) : Bool :=
  (97 ≤ c.toNat && c.toNat ≤ 122) || (65 ≤ c.toNat && c.toNat ≤ 90) ||
    (48 ≤ c.toNat && c.toNat ≤ 57) || c == '_'

/-- `n` lower-case hex digits of `s` starting at index `i`. -/
def hexRun (s : List Char) (i n : Nat) : Bool :=
  (List.range n).all fun k => isHexLower (s.getD (i + k) ' ')

/-- Whether `keyPat = \b([a-f0-9]{8}-[a-f0-9]{4}-[a-f0-9]{4}-[a-f0-9]{4}-
[a-f0-9]{12})\b` matches at index `i` of `s`: the 8-4-4-4-12 dashed hex
shape occupies `s[i..i+36)` and both ends sit on a word boundary. -/
def matchUuidAt (s : List Char) (i : Nat) : Bool :=
  i + 36 ≤ s.length &&
  hexRun s i 8 && s.getD (i + 8) ' ' == '-' &&
  hexRun s (i + 9) 4 && s.getD (i + 13) ' ' == '-' &&
  hexRun s (i + 14) 4 && s.getD (i + 18) ' ' == '-' &&
  hexRun s (i + 19) 4 && s.getD (i + 23) ' ' == '-' &&
  hexRun s (i + 24) 12 &&
  (i == 0 || !isWordChar (s.getD (i - 1) ' ')) &&
  (i + 36 == s.length || !isWordChar (s.getD (i + 36) ' '))

/-- The capture group of a `keyPat` match at index `i`: the 36 matched
characters (the `\b` anchors are zero-width). -/
def tokenAt (s : List Char) (i : Nat) : List Char :=
  (s.drop i).take 36

/-- Left-to-right non-overlapping scan of `s` from index `i`, as
`FindAllStringSubmatch(dataStr, -1)`: emit the group at each match and
resume after its end, else advance one character.  `fuel` bounds the
recursion and is at least `s.length + 1` at the top-level call. -/
def findAllMatches (s : List Char) : Nat → Nat → List (List Char)
  | 0, _ => []
  | fuel + 1, i =>
    if i < s.length then
      if matchUuidAt s i then tokenAt s i :: findAllMatches s fuel (i + 36)
      else findAllMatches s fuel (i + 1)
    else []

/-- All capture groups `keyPat` finds in `s` (`match[1]` of every element of
`FindAllStringSubmatch`). -/
def keyPatMatches (s : List Char) : List (List Char) :=
  findAllMatches s (s.length + 1) 0

/-- `detectors.Result` as the Exa scanner fills it: detector type `Exa`,
the raw token, its redaction, and the verification outcome. -/
structure Result where
  detectorType : String
  raw : List Char
  redacted : List Char
  verified : Bool
  verificationError : Option String
deriving Repr, DecidableEq

/-- What one outbound HTTP round trip produced: a transport failure from
`client.Do` (a cancelled context surfaces here too) or a response status. -/
inductive HttpOutcome where
  | transportError (msg : String)
  | status (code : Nat)
deriving Repr, DecidableEq

/-- `verifyToken`: classify the provider's response.  200 is verified;
401/403 is a clean rejection; any other status or a transport failure is an
inconclusive error.  The request is built from a constant URL, so the
`http.NewRequestWithContext` error branch is unreachable. -/
def verifyToken (resp : HttpOutcome) : Bool × Option String :=
  match resp with
  | .transportError msg => (false, some msg)
  | .status code =>
    if code = 200 then (true, none)
    else if code = 401 ∨ code = 403 then (false, none)
    else (false, some ("unexpected HTTP response status " ++ toString code))

/-- The loop body of `FromData` for one deduplicated token: build the
Result with its redaction `token[:8] + "..."`, and when `verify` is set run
`verifyToken` against the network (modelled by `net`, giving each token's
response) and record its outcome. -/
def scanToken (verify : Bool) (net : List Char → HttpOutcome) (token : List Char) :
    Result :=
  let s1 : Result :=
    { detectorType := "Exa"
      raw := token
      redacted := token.take 8 ++ ['.', '.', '.']
      verified := false
      verificationError := none }
  if verify then
    let v := verifyToken (net token)
    { s1 with verified := v.1, verificationError := v.2 }
  else s1

/-- `Scanner.FromData`: collect `keyPat`'s matches, deduplicate them via the
`uniqueMatches` set, and emit one Result per unique token. -/
def FromData (verify : Bool) (net : List Char → HttpOutcome) (data : List Char) :
    List Result :=
  ((keyPatMatches data).dedup).map (scanToken verify net)

end Exa

/-! ## The API server (`pkg/api/server.go`)

The scan registry `scans map[string]*ScanResult` is embedded as an
association list keyed by scan id; `uuid.New()` is modelled as a
fresh-identifier supply (`nextScanID`), injective exactly as the server
relies on it.  Each handler takes the server state and its decoded input
and returns the HTTP status code, the response payload and the new state;
`performScan`'s interactions with the git source and the results channel
are inputs (`ScanEnv`), and each outbound HTTP round trip's outcome is an
`Exa.HttpOutcome` input. -/

namespace Api

/-- `ScanRequest`: the decoded body of `POST /api/v1/scan`. -/
structure ScanRequest where
  repoURL : String
  webhookURL : String
  verify : Bool
  includeOnly : List String
deriving Repr, DecidableEq

/-- `ScanResponse`: the body of a `202` reply to `POST /api/v1/scan`. -/
structure ScanResponse where
  scanID : Nat
  status : String
  message : String
  createdAt : String
deriving Repr, DecidableEq

/-- `SecretResult`: the API-facing record of one found secret.  The Go
string zero value stands for an absent optional field (`omitempty`). -/
structure SecretResult where
  detectorType : String
  detectorName : String
  verified : Bool
  raw : String
  redacted : String
  extraData : List (String × String)
  sourceName : String
  sourceType : String
deriving Repr, DecidableEq

/-- `ScanResult`: one scan job's registry record. -/
structure ScanResult where
  scanID : Nat
  status : String
  repoURL : String
  startedAt : String
  completedAt : String
  totalSecrets : Nat
  verified : Nat
  unverified : Nat
  secrets : List SecretResult
  error : String
deriving Repr, DecidableEq

/-- `WebhookPayload`: the envelope `json.Marshal` serializes in
`sendWebhook`. -/
structure WebhookPayload where
  event : String
  scanResult : ScanResult
  timestamp : String
deriving Repr, DecidableEq

/-- The server's shared state: the scan registry and the fresh-id supply
standing for `uuid.New()`. -/
structure Server where
  scans : List (Nat × ScanResult)
  nextScanID : Nat
deriving Repr, DecidableEq

/-- The state `NewServer` returns: an empty registry. -/
def initServer : Server :=
  { scans := [], nextScanID := 0 }

/-- Go map indexing `m[k]`: the value bound to `k`, if any. -/
def mapLookup (m : List (Nat × ScanResult)) (k : Nat) : Option ScanResult :=
  match m with
  | [] => none
  | (a, v) :: t => if a = k then some v else mapLookup t k

/-- Go map assignment `m[k] = v`: replace the binding when the key is
present, append it otherwise. -/
def mapInsert (m : List (Nat × ScanResult)) (k : Nat) (v : ScanResult) :
    List (Nat × ScanResult) :=
  if (mapLookup m k).isSome then m.map (fun p => if p.1 = k then (k, v) else p)
  else m ++ [(k, v)]

/-- In-place mutation of the record a registry entry points at (`Go`'s
`scanResult := s.scans[scanID]; scanResult.F = ...`): a no-op on ids not
in the registry. -/
def mapUpdate (m : List (Nat × ScanResult)) (k : Nat) (f : ScanResult → ScanResult) :
    List (Nat × ScanResult) :=
  m.map fun p => if p.1 = k then (p.1, f p.2) else p

/-- The `ScanResult` literal `HandleScan` registers: a fresh pending job. -/
def pendingJob (scanID : Nat) (repoURL now : String) : ScanResult :=
  { scanID := scanID, status := "pending", repoURL := repoURL,
    startedAt := now, completedAt := "", totalSecrets := 0, verified := 0,
    unverified := 0, secrets := [], error := "" }

/-- `HandleScan` on a decoded `POST` body: reject a missing `repo_url` with
400, else register a fresh pending job and answer 202 at once. -/
def HandleScan (s : Server) (req : ScanRequest) (now : String) :
    Nat × Option ScanResponse × Server :=
  if req.repoURL = "" then (400, none, s)
  else
    let scanID := s.nextScanID
    let scanResult := pendingJob scanID req.repoURL now
    let response : ScanResponse :=
      { scanID := scanID, status := "pending",
        message := "Scan initiated successfully", createdAt := now }
    (202, some response,
      { scans := mapInsert s.scans scanID scanResult, nextScanID := s.nextScanID + 1 })

/-- `HandleGetScan` on a decoded `GET` query: 400 when `scan_id` is absent,
404 when it is unknown, else the stored record. -/
def HandleGetScan (s : Server) (scanID : Option Nat) :
    Nat × Option ScanResult × Server :=
  match scanID with
  | none => (400, none, s)
  | some id =>
    match mapLookup s.scans id with
    | none => (404, none, s)
    | some scanResult => (200, some scanResult, s)

/-- `HandleListScans`: every registered record and `total = len(scans)`. -/
def HandleListScans (s : Server) : Nat × List ScanResult × Nat × Server :=
  let scans := s.scans.map Prod.snd
  (200, scans, scans.length, s)

/-- `detectors.Result` as the channel loop of `performScan` consumes it:
`sourceRepository` is `SourceMetadata.GetData().GetGit().GetRepository()`
when `SourceMetadata` is non-nil. -/
structure EngineResult where
  detectorType : String
  detectorName : String
  verified : Bool
  raw : String
  redacted : String
  extraData : List (String × String)
  sourceRepository : Option String
deriving Repr, DecidableEq

/-- The loop body at lines 200-217 of `server.go`: build the API-facing
record.  `Raw` is never copied over, so it stays at the string zero
value. -/
def toSecretResult (r : EngineResult) : SecretResult :=
  { detectorType := r.detectorType
    detectorName := r.detectorName
    verified := r.verified
    raw := ""
    redacted := r.redacted
    extraData := r.extraData
    sourceName := match r.sourceRepository with | some repo => repo | none => ""
    sourceType := match r.sourceRepository with | some _ => "git" | none => "" }

/-- What the environment does to one run of `performScan`: the git source
`Init` outcome, the `SetSourceUnit` outcome, and the `detectors.Result`
values delivered on `resultsChan` before it closes (in the code as written
the channel is closed without a send, so the live value is `[]`; the model
keeps it an input so the aggregation loop is covered on every channel
content). -/
structure ScanEnv where
  initErr : Option String
  unitErr : Option String
  chanResults : List EngineResult
deriving Repr, DecidableEq

/-- The `running` transition at the head of `performScan`. -/
def setRunning (s : Server) (id : Nat) : Server :=
  { s with scans := mapUpdate s.scans id fun r => { r with status := "running" } }

/-- `updateScanError`: mark the job failed with the cause and completion
time; existence-checked, a no-op on an unknown id. -/
def updateScanError (s : Server) (id : Nat) (errorMsg nowTs : String) : Server :=
  { s with scans := mapUpdate s.scans id fun r =>
      { r with
        status := "failed", error := errorMsg, completedAt := nowTs } }

/-- The completion block of `performScan` (lines 223-236): freeze the
accumulated secrets, stamp `completed_at`, and partition the secrets into
the `verified`/`unverified` counters. -/
def completeScan (s : Server) (id : Nat) (found : List SecretResult) (nowTs : String) :
    Server :=
  { s with scans := mapUpdate s.scans id fun r =>
      { r with
        status := "completed", completedAt := nowTs, secrets := found,
        totalSecrets := found.length,
        verified := r.verified + (found.filter (fun x => x.verified)).length,
        unverified := r.unverified + (found.filter (fun x => !x.verified)).length } }

/-- A JSON string character, escaped. -/
def jsonEscapeChar (c : Char) : List Char :=
  if c = '"' then ['\\', '"'] else if c = '\\' then ['\\', '\\'] else [c]

/-- A JSON string literal. -/
def jstr (s : String) : String :=
  "\"" ++ String.mk (s.toList.flatMap jsonEscapeChar) ++ "\""

/-- A JSON boolean literal. -/
def jbool (b : Bool) : String :=
  if b then "true" else "false"

/-- One `"key":value` member. -/
def jfield (k v : String) : String :=
  jstr k ++ ":" ++ v

/-- A JSON object from its members. -/
def jobj (fields : List String) : String :=
  "\x7b" ++ String.intercalate "," fields ++ "\x7d"

/-- A JSON array from its elements. -/
def jarr (xs : List String) : String :=
  "[" ++ String.intercalate "," xs ++ "]"

/-- `encoding/json` on `map[string]string`. -/
def encodeStringMap (m : List (String × String)) : String :=
  jobj (m.map fun p => jfield p.1 (jstr p.2))

/-- `encoding/json` on `SecretResult`, with its struct tags: `raw` and
`extra_data` carry `omitempty`. -/
def encodeSecretResult (x : SecretResult) : String :=
  jobj (([some (jfield "detector_type" (jstr x.detectorType)),
          some (jfield "detector_name" (jstr x.detectorName)),
          some (jfield "verified" (jbool x.verified)),
          if x.raw = "" then none else some (jfield "raw" (jstr x.raw)),
          some (jfield "redacted" (jstr x.redacted)),
          if x.extraData.isEmpty then none
            else some (jfield "extra_data" (encodeStringMap x.extraData)),
          some (jfield "source_name" (jstr x.sourceName)),
          some (jfield "source_type" (jstr x.sourceType))] :
        List (Option String)).reduceOption)

/-- `encoding/json` on `ScanResult`, with its struct tags: `completed_at`,
`secrets` and `error` carry `omitempty`. -/
def encodeScanResult (r : ScanResult) : String :=
  jobj (([some (jfield "scan_id" (jstr (toString r.scanID))),
          some (jfield "status" (jstr r.status)),
          some (jfield "repo_url" (jstr r.repoURL)),
          some (jfield "started_at" (jstr r.startedAt)),
          if r.completedAt = "" then none
            else some (jfield "completed_at" (jstr r.completedAt)),
          some (jfield "total_secrets" (toString r.totalSecrets)),
          some (jfield "verified" (toString r.verified)),
          some (jfield "unverified" (toString r.unverified)),
          if r.secrets.isEmpty then none
            else some (jfield "secrets" (jarr (r.secrets.map encodeSecretResult))),
          if r.error = "" then none else some (jfield "error" (jstr r.error))] :
        List (Option String)).reduceOption)

/-- `encoding/json` on `WebhookPayload`. -/
def encodeWebhookPayload (p : WebhookPayload) : String :=
  jobj [jfield "event" (jstr p.event),
        jfield "scan_result" (encodeScanResult p.scanResult),
        jfield "timestamp" (jstr p.timestamp)]

/-- One outbound webhook request as built in `sendWebhook`. -/
structure WebhookRequest where
  method : String
  url : String
  headers : List (String × String)
  body : Option String
deriving Repr, DecidableEq

/-- `sendWebhook`: a no-op for an empty URL; otherwise snapshot the job,
marshal the `WebhookPayload` envelope into `jsonData` and issue one POST.
The request is created by `http.NewRequest(http.MethodPost, webhookURL,
nil)`, so its body is empty and `jsonData` is never attached.  `delivery`
is the round trip's outcome, read only for early return: the registry is
untouched either way and no retry happens.  (On an id missing from the
registry — unreachable in the program, which notifies only registered
scans — the Go code would dereference a nil map entry; the model issues
nothing.) -/
def sendWebhook (s : Server) (webhookURL : String) (scanID : Nat) (nowTs : String)
    (delivery : Exa.HttpOutcome) : Server × Option WebhookRequest :=
  if webhookURL = "" then (s, none)
  else
    match mapLookup s.scans scanID with
    | none => (s, none)
    | some scanResult =>
      let payload : WebhookPayload :=
        { event := "scan.completed", scanResult := scanResult, timestamp := nowTs }
      let jsonData := encodeWebhookPayload payload
      let req : WebhookRequest :=
        { method := "POST", url := webhookURL,
          headers := [("Content-Type", "application/json"),
                      ("User-Agent", "TruffleHog-API/1.0"),
                      ("X-TruffleHog-Event", "scan.completed")],
          body := none }
      (s, some req)

/-- `performScan`: the background task for one job.  Returns the registry
states after each mutation (the run's trace), the final state, and the
webhook request it issued.  The three paths mirror the source: git `Init`
failure, `SetSourceUnit` failure, or completion over the channel's
contents; each ends in `sendWebhook`. -/
def performScan (s : Server) (scanID : Nat) (req : ScanRequest) (env : ScanEnv)
    (nowTs : String) (delivery : Exa.HttpOutcome) :
    List Server × Server × Option WebhookRequest :=
  let s1 := setRunning s scanID
  match env.initErr with
  | some e =>
    let s2 := updateScanError s1 scanID ("Failed to initialize git source: " ++ e) nowTs
    let w := sendWebhook s2 req.webhookURL scanID nowTs delivery
    ([s1, s2, w.1], w.1, w.2)
  | none =>
    match env.unitErr with
    | some e =>
      let s2 := updateScanError s1 scanID ("Failed to set source unit: " ++ e) nowTs
      let w := sendWebhook s2 req.webhookURL scanID nowTs delivery
      ([s1, s2, w.1], w.1, w.2)
    | none =>
      let found := env.chanResults.map toSecretResult
      let s2 := completeScan s1 scanID found nowTs
      let w := sendWebhook s2 req.webhookURL scanID nowTs delivery
      ([s1, s2, w.1], w.1, w.2)

/-- The job snapshots a list of registry states holds for one id. -/
def jobSnapshots (states : List Server) (id : Nat) : List ScanResult :=
  states.filterMap fun st => mapLookup st.scans id

/-- The job snapshots one `performScan` run produces for its id. -/
def performScanJobTrace (s : Server) (scanID : Nat) (req : ScanRequest) (env : ScanEnv)
    (nowTs : String) (delivery : Exa.HttpOutcome) : List ScanResult :=
  jobSnapshots (performScan s scanID req env nowTs delivery).1 scanID

/-- Position of a status on the `pending → running → terminal` ladder. -/
def statusRank (st : String) : Nat :=
  if st = "pending" then 0 else if st = "running" then 1 else 2

/-- Whether a status is terminal. -/
def isTerminal (st : String) : Bool :=
  st == "completed" || st == "failed"

/-- One request against the server's boundary, with every environment
input the handler consumes. -/
inductive Op where
  | submit (req : ScanRequest) (now : String)
  | runScan (id : Nat) (req : ScanRequest) (env : ScanEnv) (ts : String)
      (d : Exa.HttpOutcome)
  | getScan (qid : Option Nat)
  | listScans
  | webhook (url : String) (id : Nat) (ts : String) (d : Exa.HttpOutcome)
deriving Repr

/-- The state each boundary operation leaves behind. -/
def applyOp (s : Server) : Op → Server
  | .submit req now => (HandleScan s req now).2.2
  | .runScan id req env ts d => (performScan s id req env ts d).2.1
  | .getScan qid => (HandleGetScan s qid).2.2
  | .listScans => (HandleListScans s).2.2.2
  | .webhook url id ts d => (sendWebhook s url id ts d).1

/-- The scan ids successive operations hand out (one per accepted
submission). -/
def issuedIds (s : Server) : List Op → List Nat
  | [] => []
  | op :: rest =>
    (match op with
     | .submit req now =>
       match (HandleScan s req now).2.1 with
       | some resp => [resp.scanID]
       | none => []
     | _ => []) ++ issuedIds (applyOp s op) rest

/-- Every registered id is below the fresh-id supply. -/
def idsBounded (s : Server) : Prop :=
  ∀ p ∈ s.scans, p.1 < s.nextScanID

/-- No stored secret carries a raw value. -/
def rawsEmpty (s : Server) : Prop :=
  ∀ p ∈ s.scans, ∀ x ∈ p.2.secrets, x.raw = ""

/-- A freshly registered pending job, for concrete runs. -/
def samplePendingJob : ScanResult :=
  pendingJob 0 "https://example.com/repo.git" "2024-01-01T00:00:00Z"

/-- A registry holding only `samplePendingJob`. -/
def sampleServer : Server :=
  { scans := [(0, samplePendingJob)], nextScanID := 1 }

/-- The request `samplePendingJob` came from. -/
def sampleRequest : ScanRequest :=
  { repoURL := "https://example.com/repo.git", webhookURL := "", verify := false,
    includeOnly := [] }

/-- A run in which the git source works and the channel delivers nothing
(exactly the code's behavior, which closes the channel without a send). -/
def sampleEnv : ScanEnv :=
  { initErr := none, unitErr := none, chanResults := [] }

/-- A job that has reached `completed`, for concrete webhook runs. -/
def completedJob : ScanResult :=
  { scanID := 0, status := "completed", repoURL := "https://example.com/repo.git",
    startedAt := "2024-01-01T00:00:00Z", completedAt := "2024-01-01T00:05:00Z",
    totalSecrets := 0, verified := 0, unverified := 0, secrets := [], error := "" }

/-- A registry holding only `completedJob`. -/
def completedServer : Server :=
  { scans := [(0, completedJob)], nextScanID := 1 }

end Api

/-! ## Detector theorems -/

/-- The raw of the Result built for a token is the token itself. -/
theorem Exa.scanToken_raw (verify : Bool) (net : List Char → Exa.HttpOutcome)
    (t : List Char) : (Exa.scanToken verify net t).raw = t := by
  cases verify <;> simp [Exa.scanToken]

/-- The redaction of the Result built for a token is its first 8 characters
plus an ellipsis. -/
theorem Exa.scanToken_redacted (verify : Bool) (net : List Char → Exa.HttpOutcome)
    (t : List Char) :
    (Exa.scanToken verify net t).redacted = t.take 8 ++ ['.', '.', '.'] := by
  cases verify <;> simp [Exa.scanToken]

/-- With verification off the Result keeps the zero value `false`. -/
theorem Exa.scanToken_not_verified (net : List Char → Exa.HttpOutcome)
    (t : List Char) : (Exa.scanToken false net t).verified = false := by
  simp [Exa.scanToken]

/-- Every token `findAllMatches` emits is the 36-character slice at some
matching index. -/
theorem Exa.mem_findAllMatches {s tok : List Char} :
    ∀ {fuel i : Nat}, tok ∈ Exa.findAllMatches s fuel i →
      ∃ j, Exa.matchUuidAt s j = true ∧ tok = Exa.tokenAt s j := by
  intro fuel
  induction fuel with
  | zero => intro i h; simp [Exa.findAllMatches] at h
  | succ n ih =>
    intro i h
    unfold Exa.findAllMatches at h
    by_cases h1 : i < s.length
    · rw [if_pos h1] at h
      by_cases h2 : Exa.matchUuidAt s i = true
      · simp only [h2, if_true] at h
        rcases List.mem_cons.mp h with rfl | h'
        · exact ⟨i, h2, rfl⟩
        · exact ih h'
      · simp only [h2, if_false] at h
        exact ih h
    · rw [if_neg h1] at h
      simp at h

/-- A match at index `i` lies inside the text. -/
theorem Exa.matchUuidAt_le {s : List Char} {i : Nat}
    (h : Exa.matchUuidAt s i = true) : i + 36 ≤ s.length := by
  simp only [Exa.matchUuidAt, Bool.and_eq_true, decide_eq_true_eq] at h
  exact h.1.1.1.1.1.1.1.1.1.1.1

/-- The slice at an in-bounds index has exactly 36 characters. -/
theorem Exa.tokenAt_length {s : List Char} {i : Nat} (h : i + 36 ≤ s.length) :
    (Exa.tokenAt s i).length = 36 := by
  simp [Exa.tokenAt]
  omega

/-- C2.  `verifyToken` answers `(true, nil)` exactly on a 200 response,
carries no error exactly on 200/401/403, and hence reports `(false,
non-nil error)` on every other status and on every transport failure: a
network fault is never a confirmed-invalid verdict. -/
theorem exa_verifyToken_classification (resp : Exa.HttpOutcome) :
    ((Exa.verifyToken resp).1 = true ↔ resp = Exa.HttpOutcome.status 200) ∧
    ((Exa.verifyToken resp).2 = none ↔
      (resp = Exa.HttpOutcome.status 200 ∨ resp = Exa.HttpOutcome.status 401 ∨
        resp = Exa.HttpOutcome.status 403)) := by
  cases resp with
  | transportError m => simp [Exa.verifyToken]
  | status c =>
    by_cases h200 : c = 200
    · subst h200; simp [Exa.verifyToken]
    · by_cases h401 : c = 401
      · subst h401; simp [Exa.verifyToken]
      · by_cases h403 : c = 403
        · subst h403; simp [Exa.verifyToken]
        · simp [Exa.verifyToken, h200, h401, h403]

/-- C3.  `FromData` emits one Result per distinct matched literal: the raw
values of its Results are exactly the deduplicated match list, and the
number of Results is the number of distinct matched literals, whatever the
repeat count. -/
theorem exa_fromData_one_result_per_distinct_literal (verify : Bool)
    (net : List Char → Exa.HttpOutcome) (data : List Char) :
    (Exa.FromData verify net data).map Exa.Result.raw =
      (Exa.keyPatMatches data).dedup ∧
    (Exa.FromData verify net data).length = (Exa.keyPatMatches data).toFinset.card := by
  constructor
  · unfold Exa.FromData
    rw [List.map_map]
    have h : ∀ t ∈ (Exa.keyPatMatches data).dedup,
        (Exa.Result.raw ∘ Exa.scanToken verify net) t = id t := by
      intro t _
      simp [Exa.scanToken_raw]
    rw [List.map_congr_left h, List.map_id]
  · unfold Exa.FromData
    rw [List.length_map]
    exact (List.card_toFinset _).symm

/-- C10.  Every literal `keyPat` matches is exactly 36 characters long, so
the redaction `token[:8] + "..."` is in bounds: every Result's raw has
length 36, its first-8 slice has length 8, and its redaction is computed
from its raw by the fixed redaction function. -/
theorem exa_match_length_redaction_in_bounds (data : List Char) (verify : Bool)
    (net : List Char → Exa.HttpOutcome) :
    (∀ tok ∈ Exa.keyPatMatches data, tok.length = 36) ∧
    (∀ r ∈ Exa.FromData verify net data,
      r.raw.length = 36 ∧ (r.raw.take 8).length = 8 ∧
        r.redacted = r.raw.take 8 ++ ['.', '.', '.']) := by
  have hmatch : ∀ tok ∈ Exa.keyPatMatches data, tok.length = 36 := by
    intro tok htok
    unfold Exa.keyPatMatches at htok
    obtain ⟨j, hm, rfl⟩ := Exa.mem_findAllMatches htok
    exact Exa.tokenAt_length (Exa.matchUuidAt_le hm)
  refine ⟨hmatch, ?_⟩
  intro r hr
  unfold Exa.FromData at hr
  obtain ⟨t, ht, rfl⟩ := List.mem_map.mp hr
  have h36 : t.length = 36 := hmatch t (List.mem_dedup.mp ht)
  refine ⟨?_, ?_, ?_⟩
  · rw [Exa.scanToken_raw]; exact h36
  · rw [Exa.scanToken_raw]
    simp [List.length_take]
    omega
  · rw [Exa.scanToken_redacted, Exa.scanToken_raw]

/-! ## API server helper lemmas -/

/-- `mapUpdate` on a cons whose key is hit. -/
theorem Api.mapUpdate_cons_eq {a k : Nat} (b : Api.ScanResult)
    (t : List (Nat × Api.ScanResult)) (f : Api.ScanResult → Api.ScanResult)
    (h : a = k) :
    Api.mapUpdate ((a, b) :: t) k f = (a, f b) :: Api.mapUpdate t k f := by
  simp [Api.mapUpdate, h]

/-- `mapUpdate` on a cons whose key is missed. -/
theorem Api.mapUpdate_cons_ne {a k : Nat} (b : Api.ScanResult)
    (t : List (Nat × Api.ScanResult)) (f : Api.ScanResult → Api.ScanResult)
    (h : a ≠ k) :
    Api.mapUpdate ((a, b) :: t) k f = (a, b) :: Api.mapUpdate t k f := by
  simp [Api.mapUpdate, h]

/-- Updating a key rewrites exactly its binding. -/
theorem Api.mapLookup_mapUpdate (m : List (Nat × Api.ScanResult)) (k : Nat)
    (f : Api.ScanResult → Api.ScanResult) :
    Api.mapLookup (Api.mapUpdate m k f) k = (Api.mapLookup m k).map f := by
  induction m with
  | nil => simp [Api.mapUpdate, Api.mapLookup]
  | cons p t ih =>
    obtain ⟨a, b⟩ := p
    by_cases h : a = k
    · rw [Api.mapUpdate_cons_eq b t f h]
      simp only [Api.mapLookup, if_pos h]
      rfl
    · rw [Api.mapUpdate_cons_ne b t f h]
      simp only [Api.mapLookup, if_neg h]
      exact ih

/-- Updating one key leaves every other binding alone. -/
theorem Api.mapLookup_mapUpdate_ne (m : List (Nat × Api.ScanResult)) (k q : Nat)
    (f : Api.ScanResult → Api.ScanResult) (h : q ≠ k) :
    Api.mapLookup (Api.mapUpdate m k f) q = Api.mapLookup m q := by
  induction m with
  | nil => simp [Api.mapUpdate, Api.mapLookup]
  | cons p t ih =>
    obtain ⟨a, b⟩ := p
    by_cases ha : a = k
    · rw [Api.mapUpdate_cons_eq b t f ha]
      have haq : a ≠ q := fun he => h (he ▸ ha)
      simp only [Api.mapLookup, if_neg haq]
      exact ih
    · rw [Api.mapUpdate_cons_ne b t f ha]
      by_cases haq : a = q
      · simp only [Api.mapLookup, if_pos haq]
      · simp only [Api.mapLookup, if_neg haq]
        exact ih

/-- An element of an updated registry is an old binding or the update of
one. -/
theorem Api.mem_mapUpdate {m : List (Nat × Api.ScanResult)} {k : Nat}
    {f : Api.ScanResult → Api.ScanResult} {q : Nat × Api.ScanResult}
    (h : q ∈ Api.mapUpdate m k f) :
    ∃ p ∈ m, q = p ∨ q = (p.1, f p.2) := by
  obtain ⟨p, hp, hq⟩ := List.mem_map.mp h
  refine ⟨p, hp, ?_⟩
  by_cases hk : p.1 = k
  · right; rw [← hq]; simp [hk]
  · left; rw [← hq]; simp [hk]

/-- An element of a registry after `m[k] = v` is an old binding or the new
one. -/
theorem Api.mem_mapInsert {m : List (Nat × Api.ScanResult)} {k : Nat}
    {v : Api.ScanResult} {q : Nat × Api.ScanResult}
    (h : q ∈ Api.mapInsert m k v) : q ∈ m ∨ q = (k, v) := by
  unfold Api.mapInsert at h
  split_ifs at h
  · obtain ⟨p, hp, hq⟩ := List.mem_map.mp h
    by_cases hk : p.1 = k
    · right; rw [← hq]; simp [hk]
    · left; rw [← hq]; simpa [hk] using hp
  · rcases List.mem_append.mp h with h' | h'
    · exact Or.inl h'
    · exact Or.inr (by simpa using h')

/-- A key no binding carries looks up to nothing. -/
theorem Api.mapLookup_eq_none_of_ne (m : List (Nat × Api.ScanResult)) (k : Nat)
    (h : ∀ p ∈ m, p.1 ≠ k) : Api.mapLookup m k = none := by
  induction m with
  | nil => rfl
  | cons p t ih =>
    obtain ⟨a, b⟩ := p
    have ha : a ≠ k := h (a, b) (List.mem_cons_self _ _)
    simp only [Api.mapLookup, if_neg ha]
    exact ih fun q hq => h q (List.mem_cons_of_mem _ hq)

/-- Appending a fresh binding makes its key look up to it. -/
theorem Api.mapLookup_append_fresh (m : List (Nat × Api.ScanResult)) (k : Nat)
    (v : Api.ScanResult) (h : Api.mapLookup m k = none) :
    Api.mapLookup (m ++ [(k, v)]) k = some v := by
  induction m with
  | nil => simp [Api.mapLookup]
  | cons p t ih =>
    obtain ⟨a, b⟩ := p
    rw [List.cons_append]
    simp only [Api.mapLookup] at h ⊢
    by_cases ha : a = k
    · rw [if_pos ha] at h; exact absurd h (by simp)
    · rw [if_neg ha] at h ⊢
      exact ih h

/-- `sendWebhook` never touches the registry, whatever the delivery
outcome: fire-and-forget. -/
theorem Api.sendWebhook_state (s : Api.Server) (url : String) (id : Nat)
    (ts : String) (d : TruffleHog.Exa.HttpOutcome) :
    (Api.sendWebhook s url id ts d).1 = s := by
  unfold Api.sendWebhook
  by_cases h : url = ""
  · simp [h]
  · simp only [if_neg h]
    cases Api.mapLookup s.scans id <;> simp

/-- The request `sendWebhook` issues does not depend on the delivery
outcome: no retry, no error handling. -/
theorem Api.sendWebhook_delivery_irrelevant (s : Api.Server) (url : String)
    (id : Nat) (ts : String) (d e : TruffleHog.Exa.HttpOutcome) :
    Api.sendWebhook s url id ts d = Api.sendWebhook s url id ts e := by
  unfold Api.sendWebhook
  rfl

/-- `HandleScan` on a body without a repository reference. -/
theorem Api.handleScan_reject (s : Api.Server) (req : Api.ScanRequest) (now : String)
    (h : req.repoURL = "") : Api.HandleScan s req now = (400, none, s) := by
  simp [Api.HandleScan, h]

/-- `HandleScan` on a body with a repository reference. -/
theorem Api.handleScan_accept (s : Api.Server) (req : Api.ScanRequest) (now : String)
    (h : req.repoURL ≠ "") :
    Api.HandleScan s req now =
      (202,
       some { scanID := s.nextScanID, status := "pending",
              message := "Scan initiated successfully", createdAt := now },
       { scans := Api.mapInsert s.scans s.nextScanID
           (Api.pendingJob s.nextScanID req.repoURL now),
         nextScanID := s.nextScanID + 1 }) := by
  simp [Api.HandleScan, h]

/-- The background task never touches the fresh-id supply. -/
theorem Api.performScan_nextScanID (s : Api.Server) (id : Nat)
    (req : Api.ScanRequest) (env : Api.ScanEnv) (ts : String)
    (d : TruffleHog.Exa.HttpOutcome) :
    (Api.performScan s id req env ts d).2.1.nextScanID = s.nextScanID := by
  rcases h1 : env.initErr with _ | e <;> rcases h2 : env.unitErr with _ | e2 <;>
    simp [Api.performScan, h1, h2, Api.sendWebhook_state, Api.setRunning,
      Api.updateScanError, Api.completeScan]

/-- `HandleGetScan` never changes the state. -/
theorem Api.handleGetScan_state (s : Api.Server) (qid : Option Nat) :
    (Api.HandleGetScan s qid).2.2 = s := by
  cases qid with
  | none => rfl
  | some id =>
    rcases h : Api.mapLookup s.scans id with _ | v <;>
      simp [Api.HandleGetScan, h]

/-- No boundary operation ever lowers the fresh-id supply. -/
theorem Api.applyOp_nextScanID (s : Api.Server) (op : Api.Op) :
    s.nextScanID ≤ (Api.applyOp s op).nextScanID := by
  cases op with
  | submit req now =>
    by_cases h : req.repoURL = ""
    · simp [Api.applyOp, Api.handleScan_reject s req now h]
    · simp [Api.applyOp, Api.handleScan_accept s req now h]
  | runScan id req env ts d =>
    simp [Api.applyOp, Api.performScan_nextScanID]
  | getScan qid => simp [Api.applyOp, Api.handleGetScan_state]
  | listScans => simp [Api.applyOp, Api.HandleListScans]
  | webhook url id ts d => simp [Api.applyOp, Api.sendWebhook_state]

/-- An accepted submission answers with the supply's current id and bumps
the supply. -/
theorem Api.handleScan_resp_id (s : Api.Server) (req : Api.ScanRequest)
    (now : String) (resp : Api.ScanResponse)
    (h : (Api.HandleScan s req now).2.1 = some resp) :
    resp.scanID = s.nextScanID ∧
      (Api.HandleScan s req now).2.2.nextScanID = s.nextScanID + 1 := by
  by_cases hr : req.repoURL = ""
  · rw [Api.handleScan_reject s req now hr] at h
    simp at h
  · rw [Api.handleScan_accept s req now hr] at h ⊢
    simp only [Option.some.injEq] at h
    subst h
    exact ⟨rfl, rfl⟩

/-- Every id a run of operations hands out is at or above the supply. -/
theorem Api.issuedIds_lower (ops : List Api.Op) :
    ∀ (s : Api.Server) (x : Nat), x ∈ Api.issuedIds s ops → s.nextScanID ≤ x := by
  induction ops with
  | nil => intro s x h; simp [Api.issuedIds] at h
  | cons op rest ih =>
    intro s x h
    simp only [Api.issuedIds] at h
    rcases List.mem_append.mp h with h1 | h2
    · cases op with
      | submit req now =>
        rcases hr : (Api.HandleScan s req now).2.1 with _ | resp
        · simp [hr] at h1
        · simp [hr] at h1
          subst h1
          exact le_of_eq (Api.handleScan_resp_id s req now resp hr).1.symm
      | runScan id req env ts d => simp at h1
      | getScan qid => simp at h1
      | listScans => simp at h1
      | webhook url id ts d => simp at h1
    · exact le_trans (Api.applyOp_nextScanID s op) (ih (Api.applyOp s op) x h2)

/-- No two submissions in one run receive the same id. -/
theorem Api.issuedIds_nodup (ops : List Api.Op) :
    ∀ s : Api.Server, (Api.issuedIds s ops).Nodup := by
  induction ops with
  | nil => intro s; simp [Api.issuedIds]
  | cons op rest ih =>
    intro s
    cases op with
    | submit req now =>
      rcases hr : (Api.HandleScan s req now).2.1 with _ | resp
      · simpa [Api.issuedIds, hr] using ih _
      · simp only [Api.issuedIds, hr, List.singleton_append]
        rw [List.nodup_cons]
        refine ⟨?_, ih _⟩
        intro hmem
        have hge := Api.issuedIds_lower rest _ _ hmem
        have hid := Api.handleScan_resp_id s req now resp hr
        simp only [Api.applyOp] at hge
        omega
    | runScan id req env ts d => simpa [Api.issuedIds] using ih _
    | getScan qid => simpa [Api.issuedIds] using ih _
    | listScans => simpa [Api.issuedIds] using ih _
    | webhook url id ts d => simpa [Api.issuedIds] using ih _

/-- `mapUpdate` keeps every key, so a bounded registry stays bounded. -/
theorem Api.idsBounded_mapUpdate {s : Api.Server}
    (h : Api.idsBounded s) (id : Nat) (f : Api.ScanResult → Api.ScanResult) :
    Api.idsBounded { s with scans := Api.mapUpdate s.scans id f } := by
  intro q hq
  obtain ⟨p, hp, hc⟩ := Api.mem_mapUpdate hq
  have hq1 : q.1 = p.1 := by rcases hc with h' | h' <;> simp [h']
  rw [hq1]
  exact h p hp

/-- The `running` transition keeps keys bounded. -/
theorem Api.idsBounded_setRunning {s : Api.Server} (h : Api.idsBounded s)
    (id : Nat) : Api.idsBounded (Api.setRunning s id) :=
  Api.idsBounded_mapUpdate h id _

/-- Failing a job keeps keys bounded. -/
theorem Api.idsBounded_updateScanError {s : Api.Server} (h : Api.idsBounded s)
    (id : Nat) (msg ts : String) :
    Api.idsBounded (Api.updateScanError s id msg ts) :=
  Api.idsBounded_mapUpdate h id _

/-- Completing a job keeps keys bounded. -/
theorem Api.idsBounded_completeScan {s : Api.Server} (h : Api.idsBounded s)
    (id : Nat) (found : List Api.SecretResult) (ts : String) :
    Api.idsBounded (Api.completeScan s id found ts) :=
  Api.idsBounded_mapUpdate h id _

/-- The background task keeps the registry's keys bounded. -/
theorem Api.idsBounded_performScan (s : Api.Server) (id : Nat)
    (req : Api.ScanRequest) (env : Api.ScanEnv) (ts : String)
    (d : TruffleHog.Exa.HttpOutcome) (h : Api.idsBounded s) :
    Api.idsBounded (Api.performScan s id req env ts d).2.1 := by
  rcases h1 : env.initErr with _ | e <;> rcases h2 : env.unitErr with _ | e2 <;>
    simp only [Api.performScan, h1, h2, Api.sendWebhook_state]
  · exact Api.idsBounded_completeScan (Api.idsBounded_setRunning h id) id _ ts
  · exact Api.idsBounded_updateScanError (Api.idsBounded_setRunning h id) id _ ts
  · exact Api.idsBounded_updateScanError (Api.idsBounded_setRunning h id) id _ ts
  · exact Api.idsBounded_updateScanError (Api.idsBounded_setRunning h id) id _ ts

/-- Every boundary operation keeps the registry's keys bounded. -/
theorem Api.idsBounded_applyOp (s : Api.Server) (op : Api.Op)
    (h : Api.idsBounded s) : Api.idsBounded (Api.applyOp s op) := by
  cases op with
  | submit req now =>
    by_cases hr : req.repoURL = ""
    · simpa [Api.applyOp, Api.handleScan_reject s req now hr] using h
    · rw [Api.applyOp, Api.handleScan_accept s req now hr]
      intro q hq
      rcases Api.mem_mapInsert hq with hold | rfl
      · exact Nat.lt_succ_of_lt (h q hold)
      · exact Nat.lt_succ_self _
  | runScan id req env ts d => exact Api.idsBounded_performScan s id req env ts d h
  | getScan qid => simpa [Api.applyOp, Api.handleGetScan_state] using h
  | listScans => simpa [Api.applyOp, Api.HandleListScans] using h
  | webhook url id ts d => simpa [Api.applyOp, Api.sendWebhook_state] using h

/-- A registry update whose new records only keep or blank secrets
preserves raw-emptiness. -/
theorem Api.rawsEmpty_mapUpdate {s : Api.Server} (h : Api.rawsEmpty s)
    (id : Nat) (f : Api.ScanResult → Api.ScanResult)
    (hf : ∀ r, ∀ x ∈ (f r).secrets, x ∈ r.secrets ∨ x.raw = "") :
    Api.rawsEmpty { s with scans := Api.mapUpdate s.scans id f } := by
  intro q hq x hx
  obtain ⟨p, hp, hc⟩ := Api.mem_mapUpdate hq
  rcases hc with h' | h'
  · rw [h'] at hx
    exact h p hp x hx
  · rw [h'] at hx
    rcases hf p.2 x hx with hx' | hx'
    · exact h p hp x hx'
    · exact hx'

/-- The API-facing record of a detector result never carries the raw. -/
theorem Api.toSecretResult_raw (r : Api.EngineResult) :
    (Api.toSecretResult r).raw = "" := rfl

/-- The `running` transition does not touch any stored secrets. -/
theorem Api.rawsEmpty_setRunning {s : Api.Server} (h : Api.rawsEmpty s) (id : Nat) :
    Api.rawsEmpty (Api.setRunning s id) :=
  Api.rawsEmpty_mapUpdate h id _ (fun r x hx => Or.inl hx)

/-- Failing a job does not touch any stored secrets. -/
theorem Api.rawsEmpty_updateScanError {s : Api.Server} (h : Api.rawsEmpty s)
    (id : Nat) (msg ts : String) :
    Api.rawsEmpty (Api.updateScanError s id msg ts) :=
  Api.rawsEmpty_mapUpdate h id _ (fun r x hx => Or.inl hx)

/-- Completing a job with raw-free secrets keeps the registry raw-free. -/
theorem Api.rawsEmpty_completeScan {s : Api.Server} (id : Nat)
    (found : List Api.SecretResult) (ts : String) (h : Api.rawsEmpty s)
    (hsec : ∀ x ∈ found, x.raw = "") :
    Api.rawsEmpty (Api.completeScan s id found ts) :=
  Api.rawsEmpty_mapUpdate h id _ (fun r x hx => Or.inr (hsec x hx))

/-- The background task keeps the registry raw-free. -/
theorem Api.rawsEmpty_performScan (s : Api.Server) (id : Nat)
    (req : Api.ScanRequest) (env : Api.ScanEnv) (ts : String)
    (d : TruffleHog.Exa.HttpOutcome) (h : Api.rawsEmpty s) :
    Api.rawsEmpty (Api.performScan s id req env ts d).2.1 := by
  rcases h1 : env.initErr with _ | e <;> rcases h2 : env.unitErr with _ | e2 <;>
    simp only [Api.performScan, h1, h2, Api.sendWebhook_state]
  · refine Api.rawsEmpty_completeScan id _ ts (Api.rawsEmpty_setRunning h id) ?_
    intro x hx
    obtain ⟨er, her, rfl⟩ := List.mem_map.mp hx
    exact Api.toSecretResult_raw er
  · exact Api.rawsEmpty_updateScanError (Api.rawsEmpty_setRunning h id) id _ ts
  · exact Api.rawsEmpty_updateScanError (Api.rawsEmpty_setRunning h id) id _ ts
  · exact Api.rawsEmpty_updateScanError (Api.rawsEmpty_setRunning h id) id _ ts

/-- Every boundary operation keeps the registry raw-free. -/
theorem Api.rawsEmpty_applyOp (s : Api.Server) (op : Api.Op)
    (h : Api.rawsEmpty s) : Api.rawsEmpty (Api.applyOp s op) := by
  cases op with
  | submit req now =>
    by_cases hr : req.repoURL = ""
    · simpa [Api.applyOp, Api.handleScan_reject s req now hr] using h
    · rw [Api.applyOp, Api.handleScan_accept s req now hr]
      intro q hq x hx
      rcases Api.mem_mapInsert hq with hold | rfl
      · exact h q hold x hx
      · simp [Api.pendingJob] at hx
  | runScan id req env ts d => exact Api.rawsEmpty_performScan s id req env ts d h
  | getScan qid => simpa [Api.applyOp, Api.handleGetScan_state] using h
  | listScans => simpa [Api.applyOp, Api.HandleListScans] using h
  | webhook url id ts d => simpa [Api.applyOp, Api.sendWebhook_state] using h

/-- The verified/unverified partition of a secret list covers it. -/
theorem Api.length_filter_partition (l : List Api.SecretResult) :
    (l.filter fun x => x.verified).length +
      (l.filter fun x => !x.verified).length = l.length := by
  induction l with
  | nil => simp
  | cons a t ih =>
    by_cases h : a.verified <;> simp [List.filter_cons, h] <;> omega

/-! ## Claim theorems for the API server -/

/-- C5.  `HandleScan` rejects a body without a repository reference with
400 and leaves the registry untouched; otherwise it answers 202 with a
fresh identifier not yet in the registry, registers exactly one new
pending job under it, and across any run of operations no two accepted
submissions ever receive the same identifier. -/
theorem submit_validates_registers_fresh_unique_ids :
    (∀ (s : Api.Server) (req : Api.ScanRequest) (now : String),
      req.repoURL = "" → Api.HandleScan s req now = (400, none, s)) ∧
    (∀ (s : Api.Server) (req : Api.ScanRequest) (now : String),
      req.repoURL ≠ "" → Api.idsBounded s →
      (Api.HandleScan s req now).1 = 202 ∧
      ∃ resp, (Api.HandleScan s req now).2.1 = some resp ∧
        resp.status = "pending" ∧
        Api.mapLookup s.scans resp.scanID = none ∧
        Api.mapLookup (Api.HandleScan s req now).2.2.scans resp.scanID =
          some (Api.pendingJob resp.scanID req.repoURL now) ∧
        (Api.HandleScan s req now).2.2.scans.length = s.scans.length + 1 ∧
        Api.idsBounded (Api.HandleScan s req now).2.2) ∧
    Api.idsBounded Api.initServer ∧
    (∀ (s : Api.Server) (op : Api.Op),
      Api.idsBounded s → Api.idsBounded (Api.applyOp s op)) ∧
    (∀ (s : Api.Server) (ops : List Api.Op), (Api.issuedIds s ops).Nodup) := by
  refine ⟨Api.handleScan_reject, ?_, ?_, Api.idsBounded_applyOp,
    fun s ops => Api.issuedIds_nodup ops s⟩
  · intro s req now hr hb
    have hfresh : Api.mapLookup s.scans s.nextScanID = none :=
      Api.mapLookup_eq_none_of_ne _ _ fun p hp => Nat.ne_of_lt (hb p hp)
    have hins : Api.mapInsert s.scans s.nextScanID
        (Api.pendingJob s.nextScanID req.repoURL now) =
        s.scans ++ [(s.nextScanID, Api.pendingJob s.nextScanID req.repoURL now)] := by
      unfold Api.mapInsert
      rw [hfresh]
      simp
    rw [Api.handleScan_accept s req now hr]
    refine ⟨rfl, _, rfl, rfl, hfresh, ?_, ?_, ?_⟩
    · simp only [hins]
      exact Api.mapLookup_append_fresh _ _ _ hfresh
    · simp [hins]
    · intro q hq
      rcases Api.mem_mapInsert hq with hold | hnew
      · exact Nat.lt_succ_of_lt (hb q hold)
      · rw [hnew]
        exact Nat.lt_succ_self _
  · intro p hp
    simp [Api.initServer] at hp

/-- C8.  `HandleGetScan` on an unknown identifier answers 404 and returns
the state unchanged (a known one is answered 200 with its record, also
unchanged); `HandleListScans` on the initial registry answers an empty
sequence with `total = 0`, and in general returns every registered job
with `total` equal to the number of returned jobs, without changing
state. -/
theorem getStatus_notFound_and_list_total :
    (∀ (s : Api.Server) (id : Nat), Api.mapLookup s.scans id = none →
      Api.HandleGetScan s (some id) = (404, none, s)) ∧
    (∀ (s : Api.Server) (id : Nat) (j : Api.ScanResult),
      Api.mapLookup s.scans id = some j →
      Api.HandleGetScan s (some id) = (200, some j, s)) ∧
    Api.HandleListScans Api.initServer = (200, [], 0, Api.initServer) ∧
    (∀ s : Api.Server,
      (Api.HandleListScans s).2.1 = s.scans.map Prod.snd ∧
      (Api.HandleListScans s).2.2.1 = (Api.HandleListScans s).2.1.length ∧
      (Api.HandleListScans s).2.2.2 = s) := by
  refine ⟨?_, ?_, rfl, ?_⟩
  · intro s id h
    simp [Api.HandleGetScan, h]
  · intro s id j h
    simp [Api.HandleGetScan, h]
  · intro s
    exact ⟨rfl, rfl, rfl⟩

/-- C9.  `sendWebhook` is a no-op on an empty URL; whatever the delivery
outcome it leaves the whole registry (so every job's status, timestamps,
results and error) unchanged, and the at-most-one request it issues does
not depend on that outcome — no retry and no error handling. -/
theorem webhook_fire_and_forget_frame :
    (∀ (s : Api.Server) (id : Nat) (ts : String) (d : Exa.HttpOutcome),
      Api.sendWebhook s "" id ts d = (s, none)) ∧
    (∀ (s : Api.Server) (url : String) (id : Nat) (ts : String)
        (d : Exa.HttpOutcome), (Api.sendWebhook s url id ts d).1 = s) ∧
    (∀ (s : Api.Server) (url : String) (id : Nat) (ts : String)
        (d e : Exa.HttpOutcome),
      Api.sendWebhook s url id ts d = Api.sendWebhook s url id ts e) := by
  refine ⟨?_, Api.sendWebhook_state, Api.sendWebhook_delivery_irrelevant⟩
  intro s id ts d
  simp [Api.sendWebhook]

/-- C6.  With `verify:false` no Exa Result carries `verified=true`; and on
the completion path `performScan` stores `total_secrets = len(results)`
with the `verified`/`unverified` counters partitioning the results
(`verified + unverified = total_secrets`), so an all-unverified result
list yields a verified count of zero. -/
theorem completed_job_counts_partition :
    (∀ (net : List Char → Exa.HttpOutcome) (data : List Char),
      ∀ r ∈ Exa.FromData false net data, r.verified = false) ∧
    (∀ (s : Api.Server) (id : Nat) (req : Api.ScanRequest) (env : Api.ScanEnv)
        (ts : String) (d : Exa.HttpOutcome) (j : Api.ScanResult),
      Api.mapLookup s.scans id = some j → j.verified = 0 → j.unverified = 0 →
      env.initErr = none → env.unitErr = none →
      ∃ t, Api.mapLookup (Api.performScan s id req env ts d).2.1.scans id = some t ∧
        t.status = "completed" ∧
        t.secrets = env.chanResults.map Api.toSecretResult ∧
        t.totalSecrets = t.secrets.length ∧
        t.verified + t.unverified = t.totalSecrets ∧
        ((∀ r ∈ env.chanResults, r.verified = false) → t.verified = 0)) := by
  constructor
  · intro net data r hr
    obtain ⟨t, ht, rfl⟩ := List.mem_map.mp hr
    exact Exa.scanToken_not_verified net t
  · intro s id req env ts d j hj hv hu h1 h2
    simp only [Api.performScan, h1, h2, Api.sendWebhook_state, Api.completeScan,
      Api.setRunning]
    rw [Api.mapLookup_mapUpdate, Api.mapLookup_mapUpdate, hj]
    simp only [Option.map_some']
    refine ⟨_, rfl, rfl, rfl, ?_, ?_, ?_⟩
    · simp
    · simp only []
      rw [hv, hu, Nat.zero_add, Nat.zero_add]
      exact Api.length_filter_partition _
    · intro hall
      simp only []
      rw [hv, Nat.zero_add]
      have : (env.chanResults.map Api.toSecretResult).filter
          (fun x => x.verified) = [] := by
        rw [List.filter_map]
        have : env.chanResults.filter
            ((fun x : Api.SecretResult => x.verified) ∘ Api.toSecretResult) = [] := by
          rw [List.filter_eq_nil_iff]
          intro a ha
          simp [Function.comp, Api.toSecretResult, hall a ha]
        rw [this, List.map_nil]
      rw [this]
      rfl

/-- C7.  The raw matched substring never crosses the process boundary:
the API-facing record of a detector result always has an empty `raw` (and
is independent of the detector's raw value), every reachable registry
stores only raw-free secrets, and the serialized form of a raw-free
secret record consists of exactly the non-raw members — the `omitempty`
tag drops `raw`. -/
theorem raw_secret_never_serialized :
    (∀ r : Api.EngineResult, (Api.toSecretResult r).raw = "") ∧
    (∀ (r : Api.EngineResult) (v w : String),
      Api.toSecretResult { r with raw := v } = Api.toSecretResult { r with raw := w }) ∧
    Api.rawsEmpty Api.initServer ∧
    (∀ (s : Api.Server) (op : Api.Op),
      Api.rawsEmpty s → Api.rawsEmpty (Api.applyOp s op)) ∧
    (∀ x : Api.SecretResult, x.raw = "" →
      Api.encodeSecretResult x =
        Api.jobj ([Api.jfield "detector_type" (Api.jstr x.detectorType),
                   Api.jfield "detector_name" (Api.jstr x.detectorName),
                   Api.jfield "verified" (Api.jbool x.verified),
                   Api.jfield "redacted" (Api.jstr x.redacted)] ++
                  (if x.extraData.isEmpty then []
                   else [Api.jfield "extra_data" (Api.encodeStringMap x.extraData)]) ++
                  [Api.jfield "source_name" (Api.jstr x.sourceName),
                   Api.jfield "source_type" (Api.jstr x.sourceType)])) := by
  refine ⟨Api.toSecretResult_raw, ?_, ?_, Api.rawsEmpty_applyOp, ?_⟩
  · intro r v w
    rfl
  · intro p hp
    simp [Api.initServer] at hp
  · intro x h
    by_cases he : x.extraData.isEmpty <;>
      simp [Api.encodeSecretResult, h, he, List.reduceOption]

/-- C4.  Along one job's run the status ladder is monotonic
(`pending → running → {completed | failed}`), exactly one terminal
snapshot is reached, once a snapshot is terminal every later snapshot is
identical to it (no status, timestamp, results or error change), and
`HandleGetScan` on the final state answers exactly that terminal
snapshot. -/
theorem job_status_monotonic_single_terminal (s : Api.Server) (id : Nat)
    (req : Api.ScanRequest) (env : Api.ScanEnv) (ts : String)
    (d : Exa.HttpOutcome) (j : Api.ScanResult)
    (hj : Api.mapLookup s.scans id = some j) (hp : j.status = "pending") :
    List.Chain' (fun a b => Api.statusRank a.status ≤ Api.statusRank b.status ∧
      (Api.isTerminal a.status = true → a = b))
      (j :: Api.performScanJobTrace s id req env ts d) ∧
    ∃ t, (j :: Api.performScanJobTrace s id req env ts d).getLast? = some t ∧
      Api.isTerminal t.status = true ∧
      Api.HandleGetScan (Api.performScan s id req env ts d).2.1 (some id) =
        (200, some t, (Api.performScan s id req env ts d).2.1) := by
  rcases h1 : env.initErr with _ | e <;> rcases h2 : env.unitErr with _ | e2 <;>
    simp only [Api.performScanJobTrace, Api.performScan, h1, h2,
      Api.sendWebhook_state, Api.jobSnapshots, List.filterMap_cons,
      List.filterMap_nil, Api.setRunning, Api.updateScanError, Api.completeScan,
      Api.mapLookup_mapUpdate, hj, Option.map_some']
  all_goals refine ⟨?_, ?_⟩
  all_goals try refine List.chain'_cons.mpr ⟨⟨?_, ?_⟩,
    List.chain'_cons.mpr ⟨⟨?_, ?_⟩,
      List.chain'_cons.mpr ⟨⟨le_refl _, fun _ => rfl⟩, List.chain'_singleton _⟩⟩⟩
  all_goals simp [hp, Api.statusRank, Api.isTerminal, List.getLast?,
    Api.HandleGetScan, Api.mapLookup_mapUpdate, hj, Option.map_some']

/-- The monotonic-terminal property of C4 holds on a concrete pending job
run to completion. -/
theorem job_status_monotonic_single_terminal_witness :
    List.Chain' (fun a b => Api.statusRank a.status ≤ Api.statusRank b.status ∧
      (Api.isTerminal a.status = true → a = b))
      (Api.samplePendingJob :: Api.performScanJobTrace Api.sampleServer 0
        Api.sampleRequest Api.sampleEnv "2024-01-01T00:05:00Z"
        (Exa.HttpOutcome.status 200)) :=
  (job_status_monotonic_single_terminal Api.sampleServer 0 Api.sampleRequest
    Api.sampleEnv "2024-01-01T00:05:00Z" (Exa.HttpOutcome.status 200)
    Api.samplePendingJob rfl rfl).1

/-- C1, as observed on the code: for a completed job with a non-empty
webhook URL, `sendWebhook` issues the one POST with the documented header
set but an empty body — `http.NewRequest` is called with `nil` and the
marshalled `WebhookPayload` envelope (a non-empty JSON document) is never
attached. -/
theorem webhook_posts_empty_body_not_envelope :
    (Api.sendWebhook Api.completedServer "https://example.com/hook" 0
        "2024-01-01T00:05:00Z" (Exa.HttpOutcome.status 200)).2 =
      some { method := "POST"
             url := "https://example.com/hook"
             headers := [("Content-Type", "application/json"),
                         ("User-Agent", "TruffleHog-API/1.0"),
                         ("X-TruffleHog-Event", "scan.completed")]
             body := none } ∧
    Api.encodeWebhookPayload { event := "scan.completed"
                               scanResult := Api.completedJob
                               timestamp := "2024-01-01T00:05:00Z" } ≠ "" := by
  constructor
  · rfl
  · decide

end TruffleHog
